import Mathlib

/-!
Verification development for the RNNSM survival model
(`src/RNNSM/rnnsm.py` of rorcde/mds20_returney).

The Python code manipulates float tensors; we embed it shallowly over the
reals, representing a tensor of shape `B × T` as a `List (List ℝ)` (one inner
list per sequence) and a boolean mask as a `List (List Bool)`.  Elementwise
tensor operations become `List.zipWith`; reductions become `List.sum`.
Float division is total in IEEE arithmetic but a zero denominator yields a
non-finite value (`0/0 = NaN`, `x/0 = ±inf`); we model a float division whose
result is consumed as a finite number by `fdiv`, which returns `none` exactly
when the denominator is zero (the non-finite outcomes) and `some (a / b)`
otherwise.
-/

namespace RNNSM

/-- Elementwise sum of two real vectors (`torch` `+` on 1-D tensors). -/
def vadd (v w : List ℝ) : List ℝ := List.zipWith (· + ·) v w

/-- Elementwise product of two real vectors (`torch` `*` on 1-D tensors). -/
def vmul (v w : List ℝ) : List ℝ := List.zipWith (· * ·) v w

/-- Dot product of two real vectors. -/
def dot (v w : List ℝ) : ℝ := (List.zipWith (· * ·) v w).sum

/-- Matrix–vector product, the matrix given as a list of rows
(`torch.nn.functional.linear` without bias). -/
def matVec (M : List (List ℝ)) (v : List ℝ) : List ℝ :=
  M.map (fun row => dot row v)

/-- Parameters of a `torch.nn.Linear` layer: weight rows and bias. -/
structure Linear where
  W : List (List ℝ)
  b : List ℝ

/-- Application of a `torch.nn.Linear` layer: `x ↦ W x + b`. -/
def Linear.apply (l : Linear) (x : List ℝ) : List ℝ :=
  vadd (matVec l.W x) l.b

/-- Numeric coercion of a mask entry, as when torch multiplies a float
tensor by a bool tensor (`True ↦ 1.0`, `False ↦ 0.0`). -/
def maskNum (b : Bool) : ℝ := if b then 1 else 0

/-- Float division whose result must be finite: IEEE division by zero
produces `NaN` or `±inf`, never a finite value, so a zero denominator is
modelled as `none`. -/
noncomputable def fdiv (a b : ℝ) : Option ℝ :=
  if b = 0 then none else some (a / b)

/-- Number of `false` entries of a boolean matrix:
`torch.sum(~mask)` for a bool tensor `mask`. -/
def countFalse (m : List (List Bool)) : ℕ :=
  (m.map (fun row => (row.filter (fun b => !b)).length)).sum

/-- Number of `true` entries of a boolean matrix: `torch.sum(mask)`. -/
def countTrue (m : List (List Bool)) : ℕ :=
  (m.map (fun row => (row.filter (fun b => b)).length)).sum

/-- The integration grid `torch.arange(0, steps * time_scale, time_scale)`:
for a positive step `time_scale` this is the `steps` points
`0, ts, 2·ts, …, (steps−1)·ts` (exact real arithmetic). -/
noncomputable def grid (steps : ℕ) (ts : ℝ) : List ℝ :=
  List.map (fun k : ℕ => (k : ℝ) * ts) (List.range steps)

/-- Trapezoidal rule on sample points, `scipy.integrate.trapz(y, x)`
restated on the list of `(x, y)` pairs: the sum over consecutive pairs of
`(x₂ − x₁) · (y₁ + y₂) / 2`; fewer than two points integrate to `0`. -/
noncomputable def trapzPairs : List (ℝ × ℝ) → ℝ
  | (x1, y1) :: (x2, y2) :: rest =>
      (x2 - x1) * (y1 + y2) / 2 + trapzPairs ((x2, y2) :: rest)
  | _ => 0

/-- The call `scipy.integrate.trapz(ys, xs)` (note scipy's argument order:
ordinates first, abscissae second). -/
noncomputable def trapz (ys xs : List ℝ) : ℝ :=
  trapzPairs (xs.zip ys)

/-- Clamping `torch.clamp(x, lo, hi) = min(max(x, lo), hi)`. -/
noncomputable def clampR (x lo hi : ℝ) : ℝ := min hi (max lo x)

/-!
The survival function.  `_s_t` (rnnsm.py lines 87–94) computes, for a last
log-intensity `o` and an elapsed scaled time `t`,
`exp(exp(o)/w − exp(o + w·t)/w)`; the broadcast branch evaluates the same
expression for one `o` against a vector of elapsed times.
-/

/-- Survival value of `_s_t` at a single elapsed time (the
`broadcast_deltas=False` branch, identical pointwise to the broadcast
branch): `exp(exp(o)/w − exp(o + w·t)/w)`. -/
noncomputable def sOne (w o t : ℝ) : ℝ :=
  Real.exp (Real.exp o / w - Real.exp (o + w * t) / w)

/-- The `broadcast_deltas=True` branch of `_s_t` for one sequence: the
survival value at every grid point. -/
noncomputable def sBroadcast (w o : ℝ) (deltas : List ℝ) : List ℝ :=
  deltas.map (sOne w o)

/-- The survival function exactly as the specification writes it:
`S(t) = exp((exp(o) − exp(o + w·t)) / w)`. -/
noncomputable def sSpec (w o t : ℝ) : ℝ :=
  Real.exp ((Real.exp o - Real.exp (o + w * t)) / w)

/-!
The loss (rnnsm.py lines 42–48):

  deltas_scaled = deltas * self.time_scale
  p = o_j + self.w * deltas_scaled
  common_term = -(torch.exp(o_j) - torch.exp(p)) / self.w * ~padding_mask
  common_term = common_term.sum() / torch.sum(~padding_mask)
  ret_term = (-p * ret_mask).sum() / torch.sum(ret_mask)
  return common_term + ret_term

All tensor operations are elementwise over a `B × T` shape.  We embed each
elementwise expression per cell, sum over the whole matrix, and perform the
two float divisions through `fdiv` (their denominators are the mask counts,
which the code never guards against being zero).
-/

/-- Per-cell value of `common_term` before the reduction:
`-(exp(o) - exp(p)) / w * ~padding` with `p = o + w·(Δ·ts)`. -/
noncomputable def commonCell (w ts : ℝ) (o delta : ℝ) (pad : Bool) : ℝ :=
  -(Real.exp o - Real.exp (o + w * (delta * ts))) / w * maskNum (!pad)

/-- Per-cell value of `-p * ret_mask` with `p = o + w·(Δ·ts)`. -/
noncomputable def retCell (w ts : ℝ) (o delta : ℝ) (ret : Bool) : ℝ :=
  -(o + w * (delta * ts)) * maskNum ret

/-- Row reduction of `common_term.sum()` restricted to one sequence. -/
noncomputable def commonRowSum (w ts : ℝ) (orow drow : List ℝ) (prow : List Bool) : ℝ :=
  ((orow.zip (drow.zip prow)).map (fun c => commonCell w ts c.1 c.2.1 c.2.2)).sum

/-- Row reduction of `(-p * ret_mask).sum()` restricted to one sequence. -/
noncomputable def retRowSum (w ts : ℝ) (orow drow : List ℝ) (rrow : List Bool) : ℝ :=
  ((orow.zip (drow.zip rrow)).map (fun c => retCell w ts c.1 c.2.1 c.2.2)).sum

/-- The model's `compute_loss(deltas, padding_mask, ret_mask, o_j)` with
hyperparameters `w` and `ts = time_scale`.  Returns `none` exactly when one
of the two unguarded float divisions has a zero denominator (IEEE `NaN`). -/
noncomputable def compute_loss (w ts : ℝ) (deltas : List (List ℝ))
    (padding_mask ret_mask : List (List Bool)) (o_j : List (List ℝ)) : Option ℝ :=
  let commonSum :=
    ((o_j.zip (deltas.zip padding_mask)).map
      (fun r => commonRowSum w ts r.1 r.2.1 r.2.2)).sum
  let retSum :=
    ((o_j.zip (deltas.zip ret_mask)).map
      (fun r => retRowSum w ts r.1 r.2.1 r.2.2)).sum
  match fdiv commonSum (countFalse padding_mask : ℝ),
        fdiv retSum (countTrue ret_mask : ℝ) with
  | some c, some r => some (c + r)
  | _, _ => none

/-!
The predictors (rnnsm.py lines 51–84).  Both read, for each sequence, the
hazard output and timestamp of the last real step (`lengths − 1`) and
integrate the survival curve on the arange grid.  We embed the loop body of
`predict` on its non-degenerate path (neither squeezed tensor collapsed) as
`predictOne`; the batch method itself, with the squeeze-induced error
paths, is `predict` below.
-/

/-- Fancy indexing `xs[arange(B), lengths − 1]` for one row: the entry at
the last valid position. -/
def lastEntry (row : List ℝ) (len : ℕ) : ℝ := row.getD (len - 1) 0

/-- Per-sequence body of `predict` (rnnsm.py lines 61–84):

  t_til_start = (pred_start - last_t_j) * time_scale
  s_t_s = clamp(_s_t(last_o_j, t_til_start), 1e-3, 1e0)
  deltas = arange(0, integration_steps * time_scale, time_scale)
  s_deltas = _s_t(last_o_j, deltas)
  pred_delta = trapz(s_deltas[deltas < t_s], deltas[deltas < t_s])
             + trapz(s_deltas[deltas >= t_s], deltas[deltas >= t_s]) / s_t_s
  pred = last_t_j + pred_delta / time_scale

Boolean-mask indexing `a[deltas < t]` keeps the entries of `a` at the
positions where the mask holds, in order: we realise it by filtering the
list of `(delta, s_delta)` pairs. -/
noncomputable def predictOne (w ts : ℝ) (steps : ℕ) (last_o last_t pred_start : ℝ) : ℝ :=
  let t_til_start := (pred_start - last_t) * ts
  let s_t_s := clampR (sOne w last_o t_til_start) (1 / 1000) 1
  let deltas := grid steps ts
  let s_deltas := sBroadcast w last_o deltas
  let pairs := deltas.zip s_deltas
  let below := pairs.filter (fun q => decide (q.1 < t_til_start))
  let above := pairs.filter (fun q => decide (t_til_start ≤ q.1))
  let pred_delta := trapz (below.map Prod.snd) (below.map Prod.fst)
    + trapz (above.map Prod.snd) (above.map Prod.fst) / s_t_s
  last_t + pred_delta / ts

/-!
The `.squeeze()` at the end of `_s_t` (rnnsm.py line 94) removes every
size-1 dimension of its result, so the rank of what `predict` indexes
depends on the batch size and the grid length: for a single-sequence batch
`s_t_s` is a 0-dim tensor and `s_t_s[i]` at line 78 raises `IndexError`
(and a `[B, 1]` broadcast output collapses to 1-D, making the boolean mask
indexing of `ith_s_deltas` at line 80 raise).  We model the squeezed
tensors with explicit ranks and the indexing operations as `Except`.
-/

/-- A tensor of rank at most one, as produced by `squeeze` on a 1-D float
tensor: a single-element tensor collapses to a 0-dim scalar. -/
inductive Squeezed1 where
  | scalar (x : ℝ)
  | vec (xs : List ℝ)

/-- The operation `Tensor.squeeze()` on a 1-D tensor. -/
def squeezeVec (xs : List ℝ) : Squeezed1 :=
  match xs with
  | [x] => Squeezed1.scalar x
  | _ => Squeezed1.vec xs

/-- A tensor of rank at most two, as produced by `squeeze` on a 2-D float
tensor. -/
inductive Squeezed2 where
  | scalar (x : ℝ)
  | vec (xs : List ℝ)
  | mat (xss : List (List ℝ))

/-- The operation `Tensor.squeeze()` on a 2-D tensor of shape `[B, n]`:
`[1, 1]` collapses to a scalar, `[1, n]` and `[B, 1]` collapse to 1-D, and
every other shape (including a zero extent) is left 2-D. -/
def squeezeMat (xss : List (List ℝ)) : Squeezed2 :=
  match xss with
  | [] => Squeezed2.mat []
  | [[x]] => Squeezed2.scalar x
  | [xs] => Squeezed2.vec xs
  | _ =>
    if xss.all (fun r => r.length = 1)
    then Squeezed2.vec (xss.map (fun r => r.getD 0 0))
    else Squeezed2.mat xss

/-- Elementwise `torch.clamp` on a squeezed tensor (rank-preserving). -/
noncomputable def Squeezed1.clampAll (t : Squeezed1) (lo hi : ℝ) : Squeezed1 :=
  match t with
  | Squeezed1.scalar x => Squeezed1.scalar (clampR x lo hi)
  | Squeezed1.vec xs => Squeezed1.vec (xs.map (fun x => clampR x lo hi))

/-- Integer indexing `t[i]` on a squeezed tensor: indexing a 0-dim tensor
raises `IndexError`. -/
def Squeezed1.index (t : Squeezed1) (i : ℕ) : Except String ℝ :=
  match t with
  | Squeezed1.scalar _ => Except.error "IndexError: invalid index of a 0-dim tensor"
  | Squeezed1.vec xs => Except.ok (xs.getD i 0)

/-- Integer indexing `t[i]` on a rank-≤2 squeezed tensor: a 2-D tensor
yields a 1-D row, a 1-D tensor yields a 0-dim element, a 0-dim tensor
raises `IndexError`. -/
def Squeezed2.row (t : Squeezed2) (i : ℕ) : Except String Squeezed1 :=
  match t with
  | Squeezed2.scalar _ => Except.error "IndexError: invalid index of a 0-dim tensor"
  | Squeezed2.vec xs => Except.ok (Squeezed1.scalar (xs.getD i 0))
  | Squeezed2.mat xss => Except.ok (Squeezed1.vec (xss.getD i []))

/-- Boolean-mask selection `a[p(deltas)]`, keeping in order the entries of
`a` at the positions of `deltas` satisfying `p`: masking a 0-dim tensor
raises `IndexError`. -/
def Squeezed1.maskSelect (t : Squeezed1) (deltas : List ℝ) (p : ℝ → Bool) :
    Except String (List ℝ) :=
  match t with
  | Squeezed1.scalar _ =>
      Except.error "IndexError: too many indices for tensor of dimension 0"
  | Squeezed1.vec xs =>
      Except.ok (((deltas.zip xs).filter (fun q => p q.1)).map Prod.snd)

/-- The Python `for i in range(batch_size)` loop filling `preds`: the first
iteration that raises aborts the whole call. -/
def exceptMap (f : ℕ → Except String ℝ) : List ℕ → Except String (List ℝ)
  | [] => Except.ok []
  | i :: is => do
      let v ← f i
      let rest ← exceptMap f is
      Except.ok (v :: rest)

/-- The batch method `predict(o_j, t_j, lengths, pred_start)` (rnnsm.py
lines 61–84), including the rank effects of `_s_t`'s trailing `squeeze`:
`s_t_s = clamp(_s_t(last_o_j, t_til_start), 1e-3, 1e0)` is the squeeze of a
`[B]` tensor (0-dim when `B = 1`), `s_deltas` is the squeeze of the
`[B, steps]` broadcast, and the loop body indexes both (`s_t_s[i]` at line
78, `s_deltas[i]` then the boolean-mask selections at lines 79–81), so a
single-sequence batch raises `IndexError` instead of returning. -/
noncomputable def predict (w ts : ℝ) (steps : ℕ) (o_j t_j : List (List ℝ))
    (lengths : List ℕ) (pred_start : ℝ) : Except String (List ℝ) :=
  let batch_size := o_j.length
  let last_o := fun b => lastEntry (o_j.getD b []) (lengths.getD b 0)
  let last_t := fun b => lastEntry (t_j.getD b []) (lengths.getD b 0)
  let t_til := fun b => (pred_start - last_t b) * ts
  let last_t_j := (List.range batch_size).map last_t
  let t_til_start := (List.range batch_size).map t_til
  let s_t_s := squeezeVec ((List.range batch_size).map (fun b => sOne w (last_o b) (t_til b)))
  let s_t_s := s_t_s.clampAll (1 / 1000) 1
  let deltas := grid steps ts
  let s_deltas := squeezeMat ((List.range batch_size).map (fun b => deltas.map (sOne w (last_o b))))
  exceptMap (fun i => do
    let ith_t_s := t_til_start.getD i 0
    let ith_s_t_s ← s_t_s.index i
    let ith_s_deltas ← s_deltas.row i
    let below ← ith_s_deltas.maskSelect deltas (fun d => decide (d < ith_t_s))
    let above ← ith_s_deltas.maskSelect deltas (fun d => decide (ith_t_s ≤ d))
    let pred_delta := trapz below (deltas.filter (fun d => decide (d < ith_t_s)))
      + trapz above (deltas.filter (fun d => decide (ith_t_s ≤ d))) / ith_s_t_s
    Except.ok (last_t_j.getD i 0 + pred_delta / ts)) (List.range batch_size)

/-- The local names bound in the body of `predict_standard` (rnnsm.py lines
51–58): the parameters and the four locals assigned under `no_grad`.  Python
resolves each name of the return expression against this scope at run time. -/
def predictStandardScope : List String :=
  ["self", "o_j", "t_j", "lengths", "last_o_j", "last_t_j", "deltas", "s_deltas"]

/-- The method `predict_standard(o_j, t_j, lengths)` (rnnsm.py lines 51–58).
Its return expression (line 58) divides by `self.time_scale` the value
`trapz(s_deltas, deltas_scaled)` — but `deltas_scaled` is not among the
names bound in the function (it is a local of `compute_loss` only), so the
call raises `NameError` before producing a value.  We model the run-time
name lookup of the return expression explicitly: when the looked-up name is
in scope the intended value (with the grid hard-coded to 1000 steps) would
be returned, otherwise the `NameError` is raised. -/
noncomputable def predict_standard (w ts : ℝ) (o_j t_j : List (List ℝ))
    (lengths : List ℕ) : Except String (List ℝ) :=
  let deltas := grid 1000 ts
  let values := (List.range o_j.length).map (fun b =>
    let last_o_j := lastEntry (o_j.getD b []) (lengths.getD b 0)
    let last_t_j := lastEntry (t_j.getD b []) (lengths.getD b 0)
    let s_deltas := sBroadcast w last_o_j deltas
    last_t_j + trapz s_deltas deltas / ts)
  if "deltas_scaled" ∈ predictStandardScope then Except.ok values
  else Except.error "NameError: name 'deltas_scaled' is not defined"

/-- Modelled from the spec: the unconditional expected next-event time of
one sequence, "last observed timestamp + integral rescaled back to original
time units", the integral being the trapezoidal integral of the survival
curve over the fixed 1000-step horizon.  This is what `predict_standard`
was intended to return (its line 58 with the defined local `deltas` in
place of the unbound `deltas_scaled`). -/
noncomputable def predictStandardIntendedOne (w ts : ℝ) (last_o last_t : ℝ) : ℝ :=
  last_t + trapz (sBroadcast w last_o (grid 1000 ts)) (grid 1000 ts) / ts

/-- Modelled from the spec (§4.4, conditional mode): "compute elapsed time
from last event to checkpoint (`t_s`), then `S(t_s)`, clamped into
`[1e-3, 1]`"; "the portion for `t < t_s` contributes the raw integral of
`S`; the portion for `t ≥ t_s` contributes the integral of `S` divided by
`S(t_s)`"; "Sum both portions, rescale, add to last observed timestamp."
Written with the spec's own survival formula `sSpec`. -/
noncomputable def condExpectedSpec (w ts : ℝ) (steps : ℕ)
    (last_o last_t checkpoint : ℝ) : ℝ :=
  let t_s := (checkpoint - last_t) * ts
  let sClamped := clampR (sSpec w last_o t_s) (1 / 1000) 1
  let pts := grid steps ts
  let before := pts.filter (fun t => decide (t < t_s))
  let after := pts.filter (fun t => decide (t_s ≤ t))
  let rawPortion := trapz (before.map (sSpec w last_o)) before
  let condPortion := trapz (after.map (sSpec w last_o)) after / sClamped
  last_t + (rawPortion + condPortion) / ts

/-!
The forward pass (rnnsm.py lines 28–39).  Dropout layers are modelled in
evaluation mode (the identity), the mode every deterministic claim about
`forward` is stated in.  `pack_padded_sequence(…, enforce_sorted=False)`
followed by `pad_packed_sequence(…, batch_first=True)` makes the LSTM
consume, for each sequence independently, exactly its first `length` encoded
steps (the packing sorts the batch by length for efficiency and restores the
original order on unpacking), and pads the per-step hidden states with zero
vectors up to the largest length in the batch — not up to the time dimension
of the input tensors.
-/

/-- Logistic sigmoid, the gate activation of `torch.nn.LSTM`. -/
noncomputable def sigmoid (x : ℝ) : ℝ := 1 / (1 + Real.exp (-x))

/-- Weights of a single-layer `torch.nn.LSTM` (`weight_ih_l0`, `bias_ih_l0`,
`weight_hh_l0`, `bias_hh_l0`; the input-hidden matrix stacks the four gates
`i, f, g, o`, each block of `H` rows). -/
structure LSTMWeights where
  weight_ih : List (List ℝ)
  bias_ih : List ℝ
  weight_hh : List (List ℝ)
  bias_hh : List ℝ

/-- One step of the LSTM cell on input `x` with state `(h, c)`:
`gates = W_ih x + b_ih + W_hh h + b_hh`, split into the four gate blocks,
`c' = f ⊙ c + i ⊙ g`, `h' = o ⊙ tanh c'`. -/
noncomputable def lstmCell (H : ℕ) (p : LSTMWeights) (x h c : List ℝ) :
    List ℝ × List ℝ :=
  let gates := vadd (vadd (matVec p.weight_ih x) p.bias_ih)
    (vadd (matVec p.weight_hh h) p.bias_hh)
  let i := ((gates.take H).map sigmoid)
  let f := (((gates.drop H).take H).map sigmoid)
  let g := (((gates.drop (2 * H)).take H).map Real.tanh)
  let o := (((gates.drop (3 * H)).take H).map sigmoid)
  let c2 := vadd (vmul f c) (vmul i g)
  let h2 := vmul o (c2.map Real.tanh)
  (h2, c2)

/-- Run of the LSTM over a sequence of encoded steps, collecting the hidden
state after each step. -/
noncomputable def lstmRun (H : ℕ) (p : LSTMWeights) :
    List (List ℝ) → List ℝ → List ℝ → List (List ℝ)
  | [], _, _ => []
  | x :: xs, h, c =>
      let s := lstmCell H p x h c
      s.1 :: lstmRun H p xs s.1 s.2

/-- The trainable state of an `RNNSM` instance: the five weight groups of
the constructor (`self.lstm`, `self.embeddings`, `self.input_dense`,
`self.output_dense`, `self.hidden`) together with the LSTM hidden width
`H = cfg.lstm_hidden_size` (configuration, not a weight).  The scalar
hyperparameters `w`, `time_scale`, `integration_steps` are not used by
`forward` and are passed separately to the functions that need them. -/
structure Params where
  H : ℕ
  lstm : LSTMWeights
  embeddings : List (List (List ℝ))
  input_dense : Linear
  output_dense : Linear
  hidden : Linear

/-- One batch element as the loss pipeline of `train.py` sees it: the
categorical codes and numeric features per padded step, the true length, and
the per-step time gaps, padding mask and return mask of that sequence. -/
structure SeqEx where
  cat : List (List ℕ)
  num : List (List ℝ)
  len : ℕ
  deltas : List ℝ
  padding : List Bool
  ret : List Bool

/-- Feature encoding of one step (rnnsm.py lines 29–33): per-field embedding
lookups concatenated with the numeric features, then
`dropout(tanh(input_dense(·)))` with dropout the identity in eval mode. -/
noncomputable def encodeStep (P : Params) (codes : List ℕ) (nums : List ℝ) : List ℝ :=
  let embedded := ((P.embeddings.zip codes).map
    (fun q => q.1.getD q.2 [])).flatten
  (P.input_dense.apply (embedded ++ nums)).map Real.tanh

/-- Hazard head on one hidden state (rnnsm.py lines 37–38):
`output_dense(dropout(tanh(hidden(h))))`, the trailing size-1 dimension
removed by the final `squeeze`. -/
noncomputable def hazardHead (P : Params) (h : List ℝ) : ℝ :=
  (P.output_dense.apply ((P.hidden.apply h).map Real.tanh)).getD 0 0

/-- Largest entry of a list of lengths (`0` for an empty batch): the time
dimension `pad_packed_sequence` pads to. -/
def maxList (l : List ℕ) : ℕ := l.foldr max 0

/-- The `forward` output row for one sequence, given the padded time
dimension `L` of the batch: the LSTM (fed exactly the sequence's first
`len` encoded steps, per the packing) produces one hidden state per real
step; `pad_packed_sequence` pads with zero vectors up to `L`; the hazard
head maps every position (real or padding) to its scalar. -/
noncomputable def perSeqForward (P : Params) (L : ℕ) (s : SeqEx) : List ℝ :=
  let xs := ((s.cat.zip s.num).take s.len).map (fun q => encodeStep P q.1 q.2)
  let hs := lstmRun P.H P.lstm xs
    (List.replicate P.H 0) (List.replicate P.H 0)
  let padded := hs ++ List.replicate (L - s.len) (List.replicate P.H 0)
  padded.map (hazardHead P)

/-- Values of `forward` on a batch, one row of hazard outputs per sequence
in the original batch order (the packing's reorder-by-length is undone by
`pad_packed_sequence`). -/
noncomputable def forwardVals (P : Params) (batch : List SeqEx) : List (List ℝ) :=
  batch.map (perSeqForward P (maxList (batch.map SeqEx.len)))

/-- The training-loop composition (train.py lines 78–82): `forward` then
`compute_loss`, with the gaps and the two masks supplied alongside each
sequence. -/
noncomputable def lossOfBatch (P : Params) (w ts : ℝ) (batch : List SeqEx) : Option ℝ :=
  compute_loss w ts (batch.map SeqEx.deltas) (batch.map SeqEx.padding)
    (batch.map SeqEx.ret) (forwardVals P batch)

/-- The shape semantics of `Tensor.squeeze()` with no arguments: every
dimension of extent 1 is removed. -/
def squeezeShape (dims : List ℕ) : List ℕ := dims.filter (fun d => d ≠ 1)

/-- Shape of the value returned by `forward` for a batch of `B` sequences
whose input tensors have padded time dimension `T` and whose true lengths
are `lengths`.  Before the final `squeeze`, `o_j` has shape
`[B, maxList lengths, 1]`: `pad_packed_sequence` (with its default
`total_length=None`) pads only to the largest true length, so `T` does not
influence the output shape. -/
def forwardShape (B : ℕ) (_T : ℕ) (lengths : List ℕ) : List ℕ :=
  squeezeShape [B, maxList lengths, 1]

/-!
The parameter store (rnnsm.py lines 97–112).  `save_model` writes a dict of
the five weight groups under fixed names; `load_model` indexes the dict by
each name (a missing key raises `KeyError`) and hands each group to
`load_state_dict`, which (with its default `strict=True`) raises on any
shape mismatch with the receiving module.  The bundle is modelled as a
record of five optional groups, the dict lookup and the strict shape check
as `Except`.
-/

/-- A saved parameter bundle: the five named groups, each possibly absent. -/
structure Bundle where
  lstm : Option LSTMWeights
  embeddings : Option (List (List (List ℝ)))
  input_dense : Option Linear
  output_dense : Option Linear
  hidden : Option Linear

/-- Shape descriptor of a `Linear` state dict: the row lengths of the weight
and the length of the bias. -/
def linShape (l : Linear) : List ℕ × ℕ := (l.W.map List.length, l.b.length)

/-- Shape descriptor of the LSTM state dict. -/
def lstmShape (p : LSTMWeights) : (List ℕ × ℕ) × (List ℕ × ℕ) :=
  ((p.weight_ih.map List.length, p.bias_ih.length),
   (p.weight_hh.map List.length, p.bias_hh.length))

/-- Shape descriptor of the embedding tables' state dict. -/
def embShape (e : List (List (List ℝ))) : List (List ℕ) :=
  e.map (fun t => t.map List.length)

/-- The shapes of all five weight groups of a model; two models "of
identical configuration" agree on these. -/
def paramShapes (P : Params) :
    ((List ℕ × ℕ) × (List ℕ × ℕ)) × List (List ℕ) × (List ℕ × ℕ) × (List ℕ × ℕ) × (List ℕ × ℕ) :=
  (lstmShape P.lstm, embShape P.embeddings, linShape P.input_dense,
   linShape P.output_dense, linShape P.hidden)

/-- Dict lookup `params[key]`: a missing key raises `KeyError`. -/
def getKey {α : Type} (v : Option α) (key : String) : Except String α :=
  match v with
  | some x => Except.ok x
  | none => Except.error ("KeyError: " ++ key)

/-- The strict shape check of `Module.load_state_dict`: the incoming group
replaces the module's parameters when every tensor shape matches, otherwise
a `RuntimeError` is raised and nothing is loaded. -/
def loadStateDict {α β : Type} [DecidableEq β] (shape : α → β)
    (target src : α) : Except String α :=
  if shape src = shape target then Except.ok src
  else Except.error "RuntimeError: size mismatch in load_state_dict"

/-- The method `save_model(path)`: the five groups stored under their
names. -/
def save_model (P : Params) : Bundle :=
  { lstm := some P.lstm
    embeddings := some P.embeddings
    input_dense := some P.input_dense
    output_dense := some P.output_dense
    hidden := some P.hidden }

/-- The method `load_model(path)` on a model `m`: look up each named group
and load it strictly; the first missing key or shape mismatch aborts with
an error. -/
def load_model (bundle : Bundle) (m : Params) : Except String Params := do
  let l ← getKey bundle.lstm "lstm"
  let l ← loadStateDict lstmShape m.lstm l
  let e ← getKey bundle.embeddings "embeddings"
  let e ← loadStateDict embShape m.embeddings e
  let i ← getKey bundle.input_dense "input_dense"
  let i ← loadStateDict linShape m.input_dense i
  let o ← getKey bundle.output_dense "output_dense"
  let o ← loadStateDict linShape m.output_dense o
  let h ← getKey bundle.hidden "hidden"
  let h ← loadStateDict linShape m.hidden h
  Except.ok { m with lstm := l, embeddings := e, input_dense := i,
                     output_dense := o, hidden := h }

/-!
Claim-side formulations of the two loss terms, written as the specification
phrases them: a sum over the selected positions (rather than a masked sum
over all positions) divided by the count of selected positions.
-/

/-- All cells of a batch as `(o, Δ, flag)` triples, row by row. -/
def cellsOf (o_j deltas : List (List ℝ)) (mask : List (List Bool)) :
    List (ℝ × ℝ × Bool) :=
  ((o_j.zip (deltas.zip mask)).map (fun r => r.1.zip (r.2.1.zip r.2.2))).flatten

/-- The survival term as the claim states it: `−(exp(o_j) − exp(p)) / w`
with `p = o_j + w·(Δ·time_scale)`, summed over the non-padded positions and
divided by the count of non-padded positions. -/
noncomputable def survTermSpec (w ts : ℝ) (deltas : List (List ℝ))
    (padding_mask : List (List Bool)) (o_j : List (List ℝ)) : ℝ :=
  (((cellsOf o_j deltas padding_mask).filter (fun c => !c.2.2)).map
    (fun c => -(Real.exp c.1 - Real.exp (c.1 + w * (c.2.1 * ts))) / w)).sum
    / (countFalse padding_mask : ℝ)

/-- The return term as the claim states it: `−p` summed over the
return-flagged positions and divided by their count. -/
noncomputable def retTermSpec (w ts : ℝ) (deltas : List (List ℝ))
    (ret_mask : List (List Bool)) (o_j : List (List ℝ)) : ℝ :=
  (((cellsOf o_j deltas ret_mask).filter (fun c => c.2.2)).map
    (fun c => -(c.1 + w * (c.2.1 * ts)))).sum
    / (countTrue ret_mask : ℝ)

/-!
Concrete instances used to instantiate the theorems below on closed inputs.
-/

/-- A concrete model state with all weight groups empty (a legal, degenerate
configuration: no categorical fields, zero-width layers). -/
def P0 : Params :=
  { H := 0
    lstm := { weight_ih := [], bias_ih := [], weight_hh := [], bias_hh := [] }
    embeddings := []
    input_dense := { W := [], b := [] }
    output_dense := { W := [], b := [] }
    hidden := { W := [], b := [] } }

/-- A concrete one-step batch element whose single position is real and
return-flagged. -/
def seqA : SeqEx :=
  { cat := [[]], num := [[]], len := 1, deltas := [1], padding := [false], ret := [true] }

/-- A second concrete batch element, of length two. -/
def seqB : SeqEx :=
  { cat := [[], []], num := [[], []], len := 2, deltas := [2, 0],
    padding := [false, true], ret := [false, false] }

/-!
General lemmas about masked sums, filters of zipped grids, and permutations.
-/

/-- A sum of values multiplied by a 0/1 mask equals the sum over the
positions where the mask is on. -/
lemma sum_mask_filter {α : Type} (l : List α) (p : α → Bool) (g : α → ℝ) :
    (l.map (fun a => g a * maskNum (p a))).sum = ((l.filter p).map g).sum := by
  induction l with
  | nil => simp
  | cons a l ih =>
      simp only [List.map_cons, List.sum_cons, List.filter_cons]
      rw [ih]
      cases h : p a <;> simp [h, maskNum]

/-- Summing row-filtered sums over the rows is summing over the filtered
flattened cells. -/
lemma sum_rows_filter {α : Type} (rows : List (List α)) (p : α → Bool) (g : α → ℝ) :
    (rows.map (fun r => ((r.filter p).map g).sum)).sum
      = ((rows.flatten.filter p).map g).sum := by
  induction rows with
  | nil => simp
  | cons r rows ih => simp [List.filter_append, ih]

/-- First components of a filtered zip of a list with a mapped copy of
itself: filtering the pairs on the first component is filtering the list. -/
lemma zip_map_filter_fst {α β : Type} (xs : List α) (f : α → β) (p : α → Bool) :
    (((xs.zip (xs.map f)).filter (fun q => p q.1)).map Prod.fst) = xs.filter p := by
  induction xs with
  | nil => simp
  | cons x xs ih =>
      cases h : p x <;> simp [List.filter_cons, h, ih]

/-- Second components of the same filtered zip: the mapped values of the
filtered list. -/
lemma zip_map_filter_snd {α β : Type} (xs : List α) (f : α → β) (p : α → Bool) :
    (((xs.zip (xs.map f)).filter (fun q => p q.1)).map Prod.snd)
      = (xs.filter p).map f := by
  induction xs with
  | nil => simp
  | cons x xs ih =>
      cases h : p x <;> simp [List.filter_cons, h, ih]

/-- Every point of the integration grid is nonnegative when the step is. -/
lemma grid_mem_nonneg {steps : ℕ} {ts : ℝ} (hts : 0 ≤ ts) :
    ∀ x ∈ grid steps ts, 0 ≤ x := by
  intro x hx
  unfold grid at hx
  rw [List.mem_map] at hx
  obtain ⟨k, -, rfl⟩ := hx
  exact mul_nonneg (Nat.cast_nonneg k) hts

/-- The code's survival expression `exp(exp(o)/w − exp(o + w·t)/w)` is the
specification's `exp((exp(o) − exp(o + w·t))/w)`. -/
lemma sOne_eq_sSpec (w o t : ℝ) : sOne w o t = sSpec w o t := by
  simp [sOne, sSpec, sub_div]

/-- The broadcast branch evaluates the spec's survival function pointwise. -/
lemma sBroadcast_eq_map_sSpec (w o : ℝ) (l : List ℝ) :
    sBroadcast w o l = l.map (sSpec w o) := by
  simp [sBroadcast, sOne_eq_sSpec]

/-- The maximum of a list of lengths is invariant under permutation. -/
lemma maxList_perm {l1 l2 : List ℕ} (h : l1.Perm l2) : maxList l1 = maxList l2 := by
  induction h with
  | nil => rfl
  | cons x _ ih => simp only [maxList, List.foldr_cons] at *; rw [ih]
  | swap x y l =>
      simp only [maxList, List.foldr_cons]
      rw [← max_assoc, ← max_assoc, max_comm y x]
  | trans _ _ ih1 ih2 => rw [ih1, ih2]

/-- Zipping three mapped copies of one list into the shape `compute_loss`
consumes. -/
lemma zip3_map {α β γ δ : Type} (l : List α) (f : α → β) (g : α → γ) (h : α → δ) :
    (l.map f).zip ((l.map g).zip (l.map h)) = l.map (fun a => (f a, g a, h a)) := by
  induction l with
  | nil => rfl
  | cons a l ih => simp [ih]

/-- C1: the claim asserts that on an all-padding batch, or on a batch with
zero return-flagged positions, `compute_loss` returns a defined value whose
degenerate term contributes zero.  In the code both masked sums are divided
by the unguarded mask counts, so a zero count is an IEEE `0/0`: the loss is
`NaN` (modelled as `none`), not a zero-contribution value, on both a 1×2
all-padding batch and a 1×2 batch with no return-flagged position. -/
theorem C1_degenerate_batch_loss_undefined :
    compute_loss 1 1 [[0, 0]] [[true, true]] [[false, false]] [[0, 0]] = none ∧
    compute_loss 1 1 [[0, 0]] [[false, false]] [[false, false]] [[0, 0]] = none := by
  constructor <;>
    simp [compute_loss, countFalse, countTrue, fdiv, commonRowSum, retRowSum]

/-- C2: the claim asserts that `predict_standard` returns one finite scalar
per sequence.  The code's return expression reads the name `deltas_scaled`,
which is bound in no scope visible to `predict_standard` (it is a local of
`compute_loss` only), so every call raises `NameError` instead of returning
a value; here evaluated on a one-sequence batch. -/
theorem C2_predict_standard_name_error :
    predict_standard 1 1 [[0]] [[5]] [1]
      = Except.error "NameError: name 'deltas_scaled' is not defined" := by
  rw [predict_standard]
  rw [if_neg (by decide)]

/-- C3 as stated is false: `forward` does not always return shape
`batch × max_length`.  With one sequence of true length 3 padded to `T = 3`,
the trailing `squeeze()` also removes the batch dimension, giving shape
`[3]`, not `[1, 3]`; and with two sequences of true length 2 padded to
`T = 5`, `pad_packed_sequence` pads only to the largest true length, giving
shape `[2, 2]`, not `[2, 5]`. -/
theorem C3_counterexample :
    forwardShape 1 3 [3] ≠ [1, 3] ∧ forwardShape 2 5 [2, 2] ≠ [2, 5] := by
  decide

/-- C3 amended: `forward` returns the hazard tensor of shape
`batch × L` where `L` is the largest true length in the batch (not the
padded time dimension of the inputs), provided the final `squeeze()` has no
singleton dimension to remove, i.e. provided `batch ≠ 1` and `L ≠ 1`. -/
theorem C3_forward_shape (B T : ℕ) (lengths : List ℕ)
    (hB : B ≠ 1) (hL : maxList lengths ≠ 1) :
    forwardShape B T lengths = [B, maxList lengths] := by
  simp [forwardShape, squeezeShape, List.filter_cons, hB, hL]

/-- Witness for the amended C3 at a concrete batch: two sequences of true
length 2 padded to 4 give shape `[2, 2]`. -/
theorem C3_witness :
    ((2 : ℕ) ≠ 1 ∧ maxList [2, 2] ≠ 1) ∧ forwardShape 2 4 [2, 2] = [2, maxList [2, 2]] :=
  ⟨by decide, C3_forward_shape 2 4 [2, 2] (by decide) (by decide)⟩

/-- C7: for every log-intensity `o` and hazard slope `w > 0`, the survival
expression computed by `_s_t` equals the specification's
`S(t) = exp((exp(o) − exp(o + w·t)) / w)`; `S(0) = 1`; `S` is non-increasing
on `t ≥ 0`; and `S(t) → 0` as `t → ∞`. -/
theorem C7_survival_properties (o w : ℝ) (hw : 0 < w) :
    (∀ t : ℝ, sOne w o t = sSpec w o t) ∧
    sSpec w o 0 = 1 ∧
    (∀ t1 t2 : ℝ, 0 ≤ t1 → t1 ≤ t2 → sSpec w o t2 ≤ sSpec w o t1) ∧
    Filter.Tendsto (fun t => sSpec w o t) Filter.atTop (nhds 0) := by
  refine ⟨fun t => sOne_eq_sSpec w o t, by simp [sSpec], ?_, ?_⟩
  · intro t1 t2 _ h12
    unfold sSpec
    apply Real.exp_le_exp.mpr
    have he : Real.exp (o + w * t1) ≤ Real.exp (o + w * t2) :=
      Real.exp_le_exp.mpr (by nlinarith)
    exact div_le_div_of_nonneg_right (by linarith) hw.le
  · have h1 : Filter.Tendsto (fun t : ℝ => o + w * t) Filter.atTop Filter.atTop :=
      Filter.tendsto_atTop_add_const_left _ o (Filter.Tendsto.const_mul_atTop hw Filter.tendsto_id)
    have h2 : Filter.Tendsto (fun t : ℝ => Real.exp (o + w * t)) Filter.atTop Filter.atTop :=
      Real.tendsto_exp_atTop.comp h1
    have h3 : Filter.Tendsto (fun t : ℝ => Real.exp (o + w * t) / w) Filter.atTop Filter.atTop :=
      h2.atTop_div_const hw
    have h4 : Filter.Tendsto (fun t : ℝ => -(Real.exp (o + w * t) / w)) Filter.atTop Filter.atBot :=
      Filter.tendsto_neg_atTop_atBot.comp h3
    have h5 : Filter.Tendsto (fun t : ℝ => Real.exp o / w + -(Real.exp (o + w * t) / w))
        Filter.atTop Filter.atBot :=
      Filter.tendsto_atBot_add_const_left _ (Real.exp o / w) h4
    have h6 := Real.tendsto_exp_atBot.comp h5
    refine h6.congr (fun t => ?_)
    simp only [sSpec, Function.comp, sub_eq_add_neg]
    ring_nf

/-- Witness for C7 at `o = 0`, `w = 1`. -/
theorem C7_witness :
    (0 : ℝ) < 1 ∧
    ((∀ t : ℝ, sOne 1 0 t = sSpec 1 0 t) ∧
     sSpec 1 0 0 = 1 ∧
     (∀ t1 t2 : ℝ, 0 ≤ t1 → t1 ≤ t2 → sSpec 1 0 t2 ≤ sSpec 1 0 t1) ∧
     Filter.Tendsto (fun t => sSpec 1 0 t) Filter.atTop (nhds 0)) :=
  ⟨by norm_num, C7_survival_properties 0 1 (by norm_num)⟩

/-- A masked row sum of the survival contributions equals the sum over the
non-padded cells of the row. -/
lemma commonRowSum_eq_filter (w ts : ℝ) (orow drow : List ℝ) (prow : List Bool) :
    commonRowSum w ts orow drow prow
      = (((orow.zip (drow.zip prow)).filter (fun c => !c.2.2)).map
          (fun c => -(Real.exp c.1 - Real.exp (c.1 + w * (c.2.1 * ts))) / w)).sum := by
  unfold commonRowSum
  exact sum_mask_filter _ _ _

/-- A masked row sum of the return contributions equals the sum over the
return-flagged cells of the row. -/
lemma retRowSum_eq_filter (w ts : ℝ) (orow drow : List ℝ) (rrow : List Bool) :
    retRowSum w ts orow drow rrow
      = (((orow.zip (drow.zip rrow)).filter (fun c => c.2.2)).map
          (fun c => -(c.1 + w * (c.2.1 * ts)))).sum := by
  unfold retRowSum
  exact sum_mask_filter _ _ _

/-- The batch reduction `common_term.sum()` equals the filtered sum over the
flattened cells. -/
lemma commonSum_eq_filter (w ts : ℝ) (deltas : List (List ℝ))
    (padding : List (List Bool)) (o_j : List (List ℝ)) :
    ((o_j.zip (deltas.zip padding)).map (fun r => commonRowSum w ts r.1 r.2.1 r.2.2)).sum
      = (((cellsOf o_j deltas padding).filter (fun c => !c.2.2)).map
          (fun c => -(Real.exp c.1 - Real.exp (c.1 + w * (c.2.1 * ts))) / w)).sum := by
  unfold cellsOf
  rw [← sum_rows_filter]
  simp only [commonRowSum_eq_filter, List.map_map]
  rfl

/-- The batch reduction `(-p * ret_mask).sum()` equals the filtered sum over
the flattened cells. -/
lemma retSum_eq_filter (w ts : ℝ) (deltas : List (List ℝ))
    (ret : List (List Bool)) (o_j : List (List ℝ)) :
    ((o_j.zip (deltas.zip ret)).map (fun r => retRowSum w ts r.1 r.2.1 r.2.2)).sum
      = (((cellsOf o_j deltas ret).filter (fun c => c.2.2)).map
          (fun c => -(c.1 + w * (c.2.1 * ts)))).sum := by
  unfold cellsOf
  rw [← sum_rows_filter]
  simp only [retRowSum_eq_filter, List.map_map]
  rfl

/-- C4: on a batch with at least one non-padded and at least one
return-flagged position, `compute_loss` is defined and equals the sum of the
survival term (the per-position contributions summed over the non-padded
positions, divided by their count) and the return term (the negated
log-intensities-at-horizon summed over the return-flagged positions, divided
by their count). -/
theorem C4_compute_loss_formula (w ts : ℝ) (deltas : List (List ℝ))
    (padding_mask ret_mask : List (List Bool)) (o_j : List (List ℝ))
    (hPad : 0 < countFalse padding_mask) (hRet : 0 < countTrue ret_mask) :
    compute_loss w ts deltas padding_mask ret_mask o_j
      = some (survTermSpec w ts deltas padding_mask o_j
          + retTermSpec w ts deltas ret_mask o_j) := by
  have hp : ((countFalse padding_mask : ℝ)) ≠ 0 := Nat.cast_ne_zero.mpr hPad.ne'
  have hr : ((countTrue ret_mask : ℝ)) ≠ 0 := Nat.cast_ne_zero.mpr hRet.ne'
  unfold compute_loss fdiv
  simp only [if_neg hp, if_neg hr, commonSum_eq_filter, retSum_eq_filter]
  unfold survTermSpec retTermSpec
  rfl

/-- Witness for C4 on a concrete 1×2 batch with one real position and one
return-flagged position. -/
theorem C4_witness :
    (0 < countFalse [[false, true]] ∧ 0 < countTrue [[true, false]]) ∧
    compute_loss 1 1 [[1, 0]] [[false, true]] [[true, false]] [[0, 0]]
      = some (survTermSpec 1 1 [[1, 0]] [[false, true]] [[0, 0]]
          + retTermSpec 1 1 [[1, 0]] [[true, false]] [[0, 0]]) :=
  ⟨by decide,
   C4_compute_loss_formula 1 1 [[1, 0]] [[false, true]] [[true, false]] [[0, 0]]
     (by decide) (by decide)⟩

/-- Eta-expanded form of the survival equality, for rewriting partial
applications. -/
lemma sOne_fun_eq (w o : ℝ) : sOne w o = sSpec w o :=
  funext (fun t => sOne_eq_sSpec w o t)

/-- For a nonpositive elapsed time and positive slope the survival value is
at least one. -/
lemma sOne_ge_one_of_nonpos (w o t : ℝ) (hw : 0 < w) (ht : t ≤ 0) :
    1 ≤ sOne w o t := by
  unfold sOne
  rw [show (1 : ℝ) = Real.exp 0 from (Real.exp_zero).symm]
  apply Real.exp_le_exp.mpr
  have he : Real.exp (o + w * t) ≤ Real.exp o := Real.exp_le_exp.mpr (by nlinarith)
  have h2 : Real.exp (o + w * t) / w ≤ Real.exp o / w :=
    div_le_div_of_nonneg_right he hw.le
  linarith

/-- Clamping into `[1e-3, 1]` sends every value at least one to exactly
one. -/
lemma clampR_eq_one {x : ℝ} (hx : 1 ≤ x) : clampR x (1 / 1000) 1 = 1 := by
  unfold clampR
  rw [max_eq_right (by linarith), min_eq_left hx]

/-- Behaviour of `predict` on a sequence whose checkpoint is not in the
future: the clamped survival value is exactly 1, the `t < t_s` portion of
the grid is empty, and the prediction is the unconditional expectation
(last timestamp plus the rescaled trapezoidal integral of the survival
curve over the whole grid). -/
lemma predictOne_past (w ts : ℝ) (steps : ℕ) (last_o last_t checkpoint : ℝ)
    (hw : 0 < w) (hts : 0 < ts) (hpast : checkpoint ≤ last_t) :
    clampR (sOne w last_o ((checkpoint - last_t) * ts)) (1 / 1000) 1 = 1 ∧
    ((grid steps ts).filter (fun d => decide (d < (checkpoint - last_t) * ts))) = [] ∧
    predictOne w ts steps last_o last_t checkpoint
      = last_t + trapz (sBroadcast w last_o (grid steps ts)) (grid steps ts) / ts := by
  have hts0 : (checkpoint - last_t) * ts ≤ 0 := by nlinarith
  have hcl : clampR (sOne w last_o ((checkpoint - last_t) * ts)) (1 / 1000) 1 = 1 :=
    clampR_eq_one (sOne_ge_one_of_nonpos w last_o _ hw hts0)
  have hfil : ((grid steps ts).filter
      (fun d => decide (d < (checkpoint - last_t) * ts))) = [] := by
    rw [List.filter_eq_nil_iff]
    intro a ha
    simpa using not_lt.mpr (le_trans hts0 (grid_mem_nonneg hts.le a ha))
  have hful : ((grid steps ts).filter
      (fun d => decide ((checkpoint - last_t) * ts ≤ d))) = grid steps ts := by
    rw [List.filter_eq_self]
    intro a ha
    simpa using le_trans hts0 (grid_mem_nonneg hts.le a ha)
  refine ⟨hcl, hfil, ?_⟩
  simp only [predictOne, sBroadcast]
  rw [zip_map_filter_fst (grid steps ts) (sOne w last_o)
        (fun x => decide (x < (checkpoint - last_t) * ts)),
      zip_map_filter_snd (grid steps ts) (sOne w last_o)
        (fun x => decide (x < (checkpoint - last_t) * ts)),
      zip_map_filter_fst (grid steps ts) (sOne w last_o)
        (fun x => decide ((checkpoint - last_t) * ts ≤ x)),
      zip_map_filter_snd (grid steps ts) (sOne w last_o)
        (fun x => decide ((checkpoint - last_t) * ts ≤ x))]
  rw [hfil, hful, hcl]
  simp [trapz, trapzPairs, sBroadcast]

/-- C5: the statement is about the intended behaviour of `predict_standard`
(the code itself raises `NameError`; see `C2_predict_standard_name_error`).
With the intended value restored and the horizon of `predict` configured to
the 1000 steps `predict_standard` hard-codes, `predict` at a checkpoint
equal to the last observed timestamp (elapsed time 0) returns exactly the
unconditional prediction. -/
theorem C5_zero_elapsed_matches_standard (w ts last_o last_t : ℝ)
    (hw : 0 < w) (hts : 0 < ts) :
    predictOne w ts 1000 last_o last_t last_t
      = predictStandardIntendedOne w ts last_o last_t := by
  have h := (predictOne_past w ts 1000 last_o last_t last_t hw hts le_rfl).2.2
  rw [h]
  rfl

/-- Witness for C5 at concrete inputs. -/
theorem C5_witness :
    ((0 : ℝ) < 1 ∧ (0 : ℝ) < 1) ∧
    predictOne 1 1 1000 0 5 5 = predictStandardIntendedOne 1 1 0 5 :=
  ⟨⟨by norm_num, by norm_num⟩,
   C5_zero_elapsed_matches_standard 1 1 0 5 (by norm_num) (by norm_num)⟩

/-- Reduction of a successful monadic step of `Except`. -/
lemma bind_ok_eq {α β : Type} (a : α) (f : α → Except String β) :
    (bind (Except.ok a) f : Except String β) = f a := rfl

/-- Reduction of a failed monadic step of `Except`. -/
lemma bind_error_eq {α β : Type} (e : String) (f : α → Except String β) :
    (bind (Except.error e) f : Except String β) = Except.error e := rfl

/-- Sums of a function mapped over a list are invariant under permutation of
the list. -/
lemma perm_map_sum {α β : Type} [AddCommMonoid β] {l1 l2 : List α}
    (h : l1.Perm l2) (f : α → β) : (l1.map f).sum = (l2.map f).sum :=
  (h.map f).sum_eq

/-- C8: the training composition `forward` then `compute_loss` yields the
same loss on any permutation of the batch (sequences with their gaps, masks
and lengths permuted consistently): the packing's reorder-by-length inside
`forward` is invisible and the loss reductions are order-free sums. -/
theorem C8_loss_batch_order_independent (P : Params) (w ts : ℝ)
    (batch batch2 : List SeqEx) (hperm : batch2.Perm batch) :
    lossOfBatch P w ts batch2 = lossOfBatch P w ts batch := by
  have hL : maxList (batch2.map SeqEx.len) = maxList (batch.map SeqEx.len) :=
    maxList_perm (hperm.map SeqEx.len)
  unfold lossOfBatch forwardVals compute_loss countFalse countTrue
  rw [hL]
  rw [zip3_map, zip3_map, zip3_map, zip3_map]
  simp only [List.map_map]
  rw [perm_map_sum hperm, perm_map_sum hperm, perm_map_sum hperm,
      perm_map_sum hperm]

/-- Witness for C8: swapping a concrete two-element batch. -/
theorem C8_witness :
    ([seqB, seqA].Perm [seqA, seqB]) ∧
    lossOfBatch P0 1 1 [seqB, seqA] = lossOfBatch P0 1 1 [seqA, seqB] :=
  ⟨List.Perm.swap seqA seqB [],
   C8_loss_batch_order_independent P0 1 1 [seqA, seqB] [seqB, seqA]
     (List.Perm.swap seqA seqB [])⟩

/-- C9: saving a model and loading the bundle into a fresh model of
identical configuration restores all five weight groups, so the loaded
model is parameter-identical to the saved one and its `forward` outputs
agree on every batch; and a load can only succeed by taking every one of
the five groups from the bundle by name with shapes matching the receiving
model — any absent or shape-mismatched group makes `load_model` return an
error instead. -/
theorem C9_parameter_store_round_trip (p q : Params) (hH : q.H = p.H)
    (hsh : paramShapes q = paramShapes p) :
    (load_model (save_model p) q = Except.ok p ∧
     ∀ batch : List SeqEx,
       Except.map (fun m => forwardVals m batch) (load_model (save_model p) q)
         = Except.ok (forwardVals p batch)) ∧
    (∀ (bundle : Bundle) (r : Params), load_model bundle q = Except.ok r →
       bundle.lstm = some r.lstm ∧ bundle.embeddings = some r.embeddings ∧
       bundle.input_dense = some r.input_dense ∧
       bundle.output_dense = some r.output_dense ∧
       bundle.hidden = some r.hidden ∧
       lstmShape r.lstm = lstmShape q.lstm ∧
       embShape r.embeddings = embShape q.embeddings ∧
       linShape r.input_dense = linShape q.input_dense ∧
       linShape r.output_dense = linShape q.output_dense ∧
       linShape r.hidden = linShape q.hidden) := by
  constructor
  · have hload : load_model (save_model p) q = Except.ok p := by
      obtain ⟨qH, ql, qe, qi, qo, qh⟩ := q
      obtain ⟨pH, pl, pe, pi, po, ph⟩ := p
      simp only [paramShapes, Prod.mk.injEq] at hsh
      obtain ⟨h1, h2, h3, h4, h5⟩ := hsh
      simp only at hH
      subst hH
      simp [load_model, save_model, getKey, loadStateDict, bind_ok_eq,
        h1, h2, h3, h4, h5]
    exact ⟨hload, fun batch => by rw [hload]; rfl⟩
  · intro bundle r hok
    obtain ⟨bl, be, bi, bo, bh⟩ := bundle
    obtain (_ | l) := bl
    · simp only [load_model, getKey, bind_error_eq] at hok
      cases hok
    obtain (_ | e) := be
    · simp only [load_model, getKey, loadStateDict, bind_ok_eq, bind_error_eq] at hok
      split_ifs at hok <;> simp only [bind_ok_eq, bind_error_eq] at hok <;> cases hok
    obtain (_ | i) := bi
    · simp only [load_model, getKey, loadStateDict, bind_ok_eq, bind_error_eq] at hok
      split_ifs at hok <;> simp only [bind_ok_eq, bind_error_eq] at hok <;> cases hok
    obtain (_ | o) := bo
    · simp only [load_model, getKey, loadStateDict, bind_ok_eq, bind_error_eq] at hok
      split_ifs at hok <;> simp only [bind_ok_eq, bind_error_eq] at hok <;> cases hok
    obtain (_ | h) := bh
    · simp only [load_model, getKey, loadStateDict, bind_ok_eq, bind_error_eq] at hok
      split_ifs at hok <;> simp only [bind_ok_eq, bind_error_eq] at hok <;> cases hok
    · simp only [load_model, getKey, loadStateDict, bind_ok_eq, bind_error_eq] at hok
      split_ifs at hok with hc1 hc2 hc3 hc4 hc5 <;>
        simp only [bind_ok_eq, bind_error_eq] at hok <;> cases hok
      exact ⟨rfl, rfl, rfl, rfl, rfl, hc1, hc2, hc3, hc4, hc5⟩

/-- Witness for C9 at the concrete degenerate model `P0` saved and loaded
into an identically configured copy. -/
theorem C9_witness :
    (P0.H = P0.H ∧ paramShapes P0 = paramShapes P0) ∧
    ((load_model (save_model P0) P0 = Except.ok P0 ∧
      ∀ batch : List SeqEx,
        Except.map (fun m => forwardVals m batch) (load_model (save_model P0) P0)
          = Except.ok (forwardVals P0 batch)) ∧
     (∀ (bundle : Bundle) (r : Params), load_model bundle P0 = Except.ok r →
        bundle.lstm = some r.lstm ∧ bundle.embeddings = some r.embeddings ∧
        bundle.input_dense = some r.input_dense ∧
        bundle.output_dense = some r.output_dense ∧
        bundle.hidden = some r.hidden ∧
        lstmShape r.lstm = lstmShape P0.lstm ∧
        embShape r.embeddings = embShape P0.embeddings ∧
        linShape r.input_dense = linShape P0.input_dense ∧
        linShape r.output_dense = linShape P0.output_dense ∧
        linShape r.hidden = linShape P0.hidden)) :=
  ⟨⟨rfl, rfl⟩, C9_parameter_store_round_trip P0 P0 rfl rfl⟩

/-- The LSTM produces exactly one hidden state per consumed step. -/
lemma lstmRun_length (H : ℕ) (p : LSTMWeights) (xs : List (List ℝ)) (h c : List ℝ) :
    (lstmRun H p xs h c).length = xs.length := by
  induction xs generalizing h c with
  | nil => rfl
  | cons x xs ih => simp [lstmRun, ih]

/-- Every entry of a list of lengths is bounded by its maximum. -/
lemma le_maxList {a : ℕ} {l : List ℕ} (h : a ∈ l) : a ≤ maxList l := by
  induction l with
  | nil => cases h
  | cons b l ih =>
      rcases List.mem_cons.mp h with rfl | h2
      · exact le_max_left _ _
      · exact le_trans (ih h2) (le_max_right _ _)

/-- For a well-formed sequence (its true length within its padded data) the
`forward` row has exactly the padded time dimension `L`: this is the
dimension check behind `forwardShape`. -/
lemma perSeqForward_length (P : Params) (L : ℕ) (s : SeqEx)
    (hlen : s.len ≤ (s.cat.zip s.num).length) (hL : s.len ≤ L) :
    (perSeqForward P L s).length = L := by
  unfold perSeqForward
  rw [List.length_map, List.length_append, lstmRun_length, List.length_map,
      List.length_take, List.length_replicate, min_eq_left hlen]
  omega

/-- Dimensions of the `forward` value model before the final `squeeze`: one
row per sequence of the batch, each row of length `max(lengths)` — the
`[B, maxList lengths, 1]` shape that `forwardShape` squeezes. -/
lemma forwardVals_shape (P : Params) (batch : List SeqEx)
    (h : ∀ s ∈ batch, s.len ≤ (s.cat.zip s.num).length) :
    (forwardVals P batch).length = batch.length ∧
    ∀ row ∈ forwardVals P batch, row.length = maxList (batch.map SeqEx.len) := by
  constructor
  · simp [forwardVals]
  · intro row hrow
    unfold forwardVals at hrow
    rw [List.mem_map] at hrow
    obtain ⟨s, hs, rfl⟩ := hrow
    exact perSeqForward_length P _ s (h s hs)
      (le_maxList (List.mem_map_of_mem SeqEx.len hs))

/-- The integration grid has one point per step. -/
lemma grid_length (steps : ℕ) (ts : ℝ) : (grid steps ts).length = steps := by
  simp [grid]

/-- Indexing (with default) into a map over an index range. -/
lemma rangeMap_getD {α : Type} {B i : ℕ} (h : i < B) (f : ℕ → α) (d : α) :
    ((List.range B).map f).getD i d = f i := by
  rw [List.getD_eq_getElem?_getD, List.getElem?_map, List.getElem?_range h]
  rfl

/-- Squeezing a 1-D tensor that does not have exactly one entry leaves it
1-D. -/
lemma squeezeVec_vec (xs : List ℝ) (h : xs.length ≠ 1) :
    squeezeVec xs = Squeezed1.vec xs := by
  cases xs with
  | nil => rfl
  | cons a t =>
      cases t with
      | nil => simp at h
      | cons b t2 => rfl

/-- Squeezing a 2-D tensor with row count ≠ 1 and uniform row length ≠ 1
leaves it 2-D. -/
lemma squeezeMat_mat (xss : List (List ℝ)) (n : ℕ) (hB : xss.length ≠ 1)
    (hrow : ∀ r ∈ xss, r.length = n) (hn : n ≠ 1) :
    squeezeMat xss = Squeezed2.mat xss := by
  cases xss with
  | nil => rfl
  | cons r1 t =>
      cases t with
      | nil => simp at hB
      | cons r2 t2 =>
          have h1 : r1.length = n := hrow r1 (by simp)
          have hfalse : ¬((r1 :: r2 :: t2).all (fun r => r.length = 1) = true) := by
            simp only [List.all_eq_true]
            intro hall
            have h2 := hall r1 (by simp)
            simp only [decide_eq_true_eq] at h2
            rw [h1] at h2
            exact hn h2
          simp only [squeezeMat]
          rw [if_neg hfalse]

/-- The loop runner returns the mapped values when no iteration fails. -/
lemma exceptMap_ok (f : ℕ → Except String ℝ) (g : ℕ → ℝ) (l : List ℕ)
    (h : ∀ i ∈ l, f i = Except.ok (g i)) :
    exceptMap f l = Except.ok (l.map g) := by
  induction l with
  | nil => rfl
  | cons i is ih =>
      simp only [exceptMap]
      rw [h i (List.mem_cons_self i is), bind_ok_eq,
          ih (fun j hj => h j (List.mem_cons_of_mem i hj)), bind_ok_eq]
      rfl

/-- `predictOne` with the abscissa-side pair filters eliminated, matching
the shape of the loop-body value in `predict`. -/
lemma predictOne_eq_body (w ts : ℝ) (steps : ℕ) (lo lt ps : ℝ) :
    predictOne w ts steps lo lt ps
      = lt + (trapz
            ((((grid steps ts).zip ((grid steps ts).map (sOne w lo))).filter
                (fun q => decide (q.1 < (ps - lt) * ts))).map Prod.snd)
            ((grid steps ts).filter (fun d => decide (d < (ps - lt) * ts)))
          + trapz
              ((((grid steps ts).zip ((grid steps ts).map (sOne w lo))).filter
                  (fun q => decide ((ps - lt) * ts ≤ q.1))).map Prod.snd)
              ((grid steps ts).filter (fun d => decide ((ps - lt) * ts ≤ d)))
            / clampR (sOne w lo ((ps - lt) * ts)) (1 / 1000) 1) / ts := by
  simp only [predictOne, sBroadcast]
  rw [zip_map_filter_fst (grid steps ts) (sOne w lo)
        (fun x => decide (x < (ps - lt) * ts)),
      zip_map_filter_fst (grid steps ts) (sOne w lo)
        (fun x => decide ((ps - lt) * ts ≤ x))]

/-- On a batch whose size is not one and a grid of ≠ 1 points — so that
neither of the two squeezed tensors collapses a dimension — `predict`
succeeds, returning the loop-body value `predictOne` for each sequence. -/
lemma predict_ok (w ts : ℝ) (steps : ℕ) (o_j t_j : List (List ℝ))
    (lengths : List ℕ) (pred_start : ℝ)
    (hB : o_j.length ≠ 1) (hsteps : steps ≠ 1) :
    predict w ts steps o_j t_j lengths pred_start
      = Except.ok ((List.range o_j.length).map (fun b =>
          predictOne w ts steps (lastEntry (o_j.getD b []) (lengths.getD b 0))
            (lastEntry (t_j.getD b []) (lengths.getD b 0)) pred_start)) := by
  have hsq1 : squeezeVec ((List.range o_j.length).map (fun b =>
      sOne w (lastEntry (o_j.getD b []) (lengths.getD b 0))
        ((pred_start - lastEntry (t_j.getD b []) (lengths.getD b 0)) * ts)))
      = Squeezed1.vec ((List.range o_j.length).map (fun b =>
          sOne w (lastEntry (o_j.getD b []) (lengths.getD b 0))
            ((pred_start - lastEntry (t_j.getD b []) (lengths.getD b 0)) * ts))) :=
    squeezeVec_vec _ (by simpa using hB)
  have hsq2 : squeezeMat ((List.range o_j.length).map (fun b =>
      (grid steps ts).map (sOne w (lastEntry (o_j.getD b []) (lengths.getD b 0)))))
      = Squeezed2.mat ((List.range o_j.length).map (fun b =>
          (grid steps ts).map (sOne w (lastEntry (o_j.getD b []) (lengths.getD b 0))))) := by
    refine squeezeMat_mat _ steps (by simpa using hB) ?_ hsteps
    intro r hr
    rw [List.mem_map] at hr
    obtain ⟨b, -, rfl⟩ := hr
    simp [grid_length]
  simp only [predict]
  simp only [hsq1, hsq2, Squeezed1.clampAll]
  apply exceptMap_ok
  intro i hi
  have hiB : i < o_j.length := List.mem_range.mp hi
  simp only [Squeezed1.index, Squeezed2.row, Squeezed1.maskSelect, bind_ok_eq,
    List.map_map]
  simp only [rangeMap_getD hiB, Function.comp]
  rw [predictOne_eq_body]

/-- The per-sequence loop-body value equals the specification's conditional
expectation formula (hypothesis-free pointwise identity). -/
lemma predictOne_eq_condExpectedSpec (w ts : ℝ) (steps : ℕ) (lo lt cp : ℝ) :
    predictOne w ts steps lo lt cp = condExpectedSpec w ts steps lo lt cp := by
  simp only [predictOne, condExpectedSpec, sBroadcast]
  rw [zip_map_filter_fst (grid steps ts) (sOne w lo)
        (fun x => decide (x < (cp - lt) * ts)),
      zip_map_filter_snd (grid steps ts) (sOne w lo)
        (fun x => decide (x < (cp - lt) * ts)),
      zip_map_filter_fst (grid steps ts) (sOne w lo)
        (fun x => decide ((cp - lt) * ts ≤ x)),
      zip_map_filter_snd (grid steps ts) (sOne w lo)
        (fun x => decide ((cp - lt) * ts ≤ x))]
  simp only [sOne_fun_eq, sOne_eq_sSpec]

/-- C6 as stated is false of `predict`: on a batch holding a single
sequence, with the checkpoint strictly in the future, `_s_t`'s trailing
`squeeze` (rnnsm.py line 94) makes the clamped `S(t_s)` tensor
0-dimensional and the loop's `s_t_s[i]` (line 78) raises `IndexError`, so
`predict` returns nothing at all rather than the claimed value. -/
theorem C6_counterexample :
    predict 1 1 2 [[0]] [[0]] [1] 1
      = Except.error "IndexError: invalid index of a 0-dim tensor" := rfl

/-- C6 amended: for every batch of at least two sequences and an
integration grid of more than one point (the repo configures hundreds; with
exactly one grid point or one sequence a squeeze collapses a dimension and
`predict` raises `IndexError`), with the checkpoint strictly in the future
of every sequence, `predict` succeeds and returns per sequence the
specification's conditional expectation: elapsed scaled time `t_s`,
`S(t_s)` clamped into `[1e-3, 1]`, and the last observed timestamp plus the
rescaled sum of the raw trapezoidal integral over the grid points with
`t < t_s` and the integral over the points with `t ≥ t_s` divided by the
clamped `S(t_s)`. -/
theorem C6_predict_conditional_formula (w ts : ℝ) (steps : ℕ)
    (o_j t_j : List (List ℝ)) (lengths : List ℕ) (pred_start : ℝ)
    (hB : 2 ≤ o_j.length) (hsteps : steps ≠ 1)
    (hfut : ∀ b, b < o_j.length →
      lastEntry (t_j.getD b []) (lengths.getD b 0) < pred_start) :
    predict w ts steps o_j t_j lengths pred_start
      = Except.ok ((List.range o_j.length).map (fun b =>
          condExpectedSpec w ts steps (lastEntry (o_j.getD b []) (lengths.getD b 0))
            (lastEntry (t_j.getD b []) (lengths.getD b 0)) pred_start)) := by
  rw [predict_ok w ts steps o_j t_j lengths pred_start (by omega) hsteps]
  simp only [predictOne_eq_condExpectedSpec]

/-- Witness for the amended C6 on a concrete two-sequence batch with a
strictly-future checkpoint. -/
theorem C6_witness :
    ((2 : ℕ) ≤ 2 ∧ (2 : ℕ) ≠ 1 ∧
     (∀ b, b < 2 →
        lastEntry (([[(0 : ℝ)], [0]]).getD b []) (([1, 1] : List ℕ).getD b 0) < 1)) ∧
    predict 1 1 2 [[0], [0]] [[0], [0]] [1, 1] 1
      = Except.ok ((List.range 2).map (fun b =>
          condExpectedSpec 1 1 2
            (lastEntry (([[(0 : ℝ)], [0]]).getD b []) (([1, 1] : List ℕ).getD b 0))
            (lastEntry (([[(0 : ℝ)], [0]]).getD b []) (([1, 1] : List ℕ).getD b 0)) 1)) :=
  ⟨⟨by norm_num, by norm_num, by
      intro b hb
      have hb2 : b = 0 ∨ b = 1 := by omega
      rcases hb2 with rfl | rfl <;> norm_num [lastEntry]⟩,
   C6_predict_conditional_formula 1 1 2 [[0], [0]] [[0], [0]] [1, 1] 1
     (by norm_num) (by norm_num)
     (by
      intro b hb
      have hb' : b < 2 := hb
      have hb2 : b = 0 ∨ b = 1 := by omega
      rcases hb2 with rfl | rfl <;> norm_num [lastEntry])⟩

/-- C10 as stated is false of `predict`: its "completes without error"
conclusion fails on every single-sequence batch — here with the checkpoint
at or before the last observed timestamp — because the 0-dim clamped
`S(t_s)` makes `s_t_s[i]` (rnnsm.py line 78) raise `IndexError` regardless
of the checkpoint. -/
theorem C10_counterexample :
    predict 1 1 2 [[0]] [[3]] [1] 2
      = Except.error "IndexError: invalid index of a 0-dim tensor" := rfl

/-- C10 amended: on a batch of at least two sequences with a grid of more
than one point (otherwise `predict` raises `IndexError` from the squeeze
collapse, independently of the checkpoint), a checkpoint at or before every
last observed timestamp (elapsed `t_s ≤ 0`) still yields a defined result:
`S(t_s) ≥ 1` is clamped to exactly 1, no grid point falls in the `t < t_s`
portion, and each returned prediction is the unconditional expectation —
the last observed timestamp plus the rescaled trapezoidal integral of the
survival curve over the full configured horizon. -/
theorem C10_predict_past_checkpoint (w ts : ℝ) (steps : ℕ)
    (o_j t_j : List (List ℝ)) (lengths : List ℕ) (pred_start : ℝ)
    (hw : 0 < w) (hts : 0 < ts) (hB : 2 ≤ o_j.length) (hsteps : steps ≠ 1)
    (hpast : ∀ b, b < o_j.length →
      pred_start ≤ lastEntry (t_j.getD b []) (lengths.getD b 0)) :
    predict w ts steps o_j t_j lengths pred_start
      = Except.ok ((List.range o_j.length).map (fun b =>
          lastEntry (t_j.getD b []) (lengths.getD b 0)
            + trapz (sBroadcast w (lastEntry (o_j.getD b []) (lengths.getD b 0))
                (grid steps ts)) (grid steps ts) / ts)) ∧
    (∀ b, b < o_j.length →
      clampR (sOne w (lastEntry (o_j.getD b []) (lengths.getD b 0))
          ((pred_start - lastEntry (t_j.getD b []) (lengths.getD b 0)) * ts))
        (1 / 1000) 1 = 1) ∧
    (∀ b, b < o_j.length →
      ((grid steps ts).filter (fun d =>
        decide (d < (pred_start - lastEntry (t_j.getD b []) (lengths.getD b 0)) * ts)))
        = []) := by
  refine ⟨?_,
    fun b hb => (predictOne_past w ts steps
      (lastEntry (o_j.getD b []) (lengths.getD b 0))
      (lastEntry (t_j.getD b []) (lengths.getD b 0)) pred_start hw hts (hpast b hb)).1,
    fun b hb => (predictOne_past w ts steps
      (lastEntry (o_j.getD b []) (lengths.getD b 0))
      (lastEntry (t_j.getD b []) (lengths.getD b 0)) pred_start hw hts (hpast b hb)).2.1⟩
  rw [predict_ok w ts steps o_j t_j lengths pred_start (by omega) hsteps]
  congr 1
  apply List.map_congr_left
  intro b hbmem
  exact (predictOne_past w ts steps
    (lastEntry (o_j.getD b []) (lengths.getD b 0))
    (lastEntry (t_j.getD b []) (lengths.getD b 0)) pred_start hw hts
    (hpast b (List.mem_range.mp hbmem))).2.2

/-- Witness for the amended C10 on a concrete two-sequence batch with a
past checkpoint. -/
theorem C10_witness :
    ((0 : ℝ) < 1 ∧ (0 : ℝ) < 1 ∧ (2 : ℕ) ≤ 2 ∧ (2 : ℕ) ≠ 1 ∧
     (∀ b, b < 2 →
        (0 : ℝ) ≤ lastEntry (([[(3 : ℝ)], [4]]).getD b []) (([1, 1] : List ℕ).getD b 0))) ∧
    (predict 1 1 2 [[0], [0]] [[3], [4]] [1, 1] 0
       = Except.ok ((List.range 2).map (fun b =>
           lastEntry (([[(3 : ℝ)], [4]]).getD b []) (([1, 1] : List ℕ).getD b 0)
             + trapz (sBroadcast 1
                 (lastEntry (([[(0 : ℝ)], [0]]).getD b []) (([1, 1] : List ℕ).getD b 0))
                 (grid 2 1)) (grid 2 1) / 1)) ∧
     (∀ b, b < 2 →
        clampR (sOne 1 (lastEntry (([[(0 : ℝ)], [0]]).getD b []) (([1, 1] : List ℕ).getD b 0))
            ((0 - lastEntry (([[(3 : ℝ)], [4]]).getD b []) (([1, 1] : List ℕ).getD b 0)) * 1))
          (1 / 1000) 1 = 1) ∧
     (∀ b, b < 2 →
        ((grid 2 1).filter (fun d =>
          decide (d < (0 - lastEntry (([[(3 : ℝ)], [4]]).getD b [])
            (([1, 1] : List ℕ).getD b 0)) * 1))) = [])) :=
  ⟨⟨by norm_num, by norm_num, by norm_num, by norm_num, by
      intro b hb
      have hb2 : b = 0 ∨ b = 1 := by omega
      rcases hb2 with rfl | rfl <;> norm_num [lastEntry]⟩,
   C10_predict_past_checkpoint 1 1 2 [[0], [0]] [[3], [4]] [1, 1] 0
     (by norm_num) (by norm_num) (by norm_num) (by norm_num)
     (by
      intro b hb
      have hb' : b < 2 := hb
      have hb2 : b = 0 ∨ b = 1 := by omega
      rcases hb2 with rfl | rfl <;> norm_num [lastEntry])⟩

end RNNSM
